import Mathlib

/-!
# Verification of the leizm-http-proxy request-routing core

A shallow embedding of `src/index.ts` (the first, authoritative version of the
file: the `HTTPProxy` class with query-string stripping, the `proxy` event and
the local-file responder).  JavaScript strings are modelled as `List Char`
(`JStr`); JavaScript plain objects used as header maps are modelled as
association lists (`Obj`); the insertion-ordered `Map<RegExp, FormattedRule>`
is modelled as a list of entries paired with a numeric key standing for the
identity of the compiled regex object (each compilation yields a fresh object,
hence a fresh key).  External library behaviour that the source relies on is
modelled from its documented semantics and marked as such: Node's legacy
`url.parse` (restricted to the absolute-URL shapes the proxy handles),
JavaScript `String.prototype.replace` with a string search value (first
occurrence only, `$`-substitution in the replacement), and `path-to-regexp`
compiled patterns (carried abstractly as an exec function, a capture-key list
and the canonical pattern string used as the rule id).
-/

namespace HttpProxy

/-- JavaScript strings, modelled as lists of characters. -/
abbrev JStr := List Char

/-- Embed a Lean string literal as a `JStr`. -/
def js (s : String) : JStr := s.toList

/-- JavaScript plain objects used as string-to-string maps (header maps):
association lists, looked up by first occurrence of the key. -/
abbrev Obj := List (JStr × JStr)

/-- `o[k]`: first binding of key `k`, as in a JS object (keys are unique in
objects actually built by the code). -/
def objGet (o : Obj) (k : JStr) : Option JStr :=
  (o.find? (fun p => p.1 = k)).map (fun p => p.2)

/-- `o[k] = v`: overwrite the binding in place when the key exists, append
otherwise. -/
def objSet (o : Obj) (k : JStr) (v : JStr) : Obj :=
  if o.any (fun p => p.1 = k) then
    o.map (fun p => if p.1 = k then (k, v) else p)
  else o ++ [(k, v)]

/-- `delete o[k]`. -/
def objDelete (o : Obj) (k : JStr) : Obj :=
  o.filter (fun p => ¬(p.1 = k))

/-- Object spread `\x7b ...a, ...b \x7d`: `b` wins on every common key.  (The
model keeps `b`'s bindings and the `a`-only bindings; the claims are about the
resulting mapping, not about key order.) -/
def objMerge (a b : Obj) : Obj :=
  a.filter (fun p => ¬(b.any (fun q => q.1 = p.1))) ++ b

/-- First-or-second for optional strings (used to state merge precedence). -/
def jsOr (a b : Option JStr) : Option JStr :=
  match a with
  | some v => some v
  | none => b

/-- JS truthiness of a possibly-absent string: present and non-empty. -/
def optTruthy (a : Option JStr) : Bool :=
  match a with
  | some v => v ≠ []
  | none => false

/-- `String.prototype.indexOf` for a string needle: index of the first
occurrence, `none` when absent (the empty needle is found at 0). -/
def strIndexOf? (hay pat : JStr) : Option Nat :=
  if pat.isPrefixOf hay then some 0
  else
    match hay with
    | [] => none
    | _ :: t => (strIndexOf? t pat).map (fun n => n + 1)

/-- `GetSubstitution` for a string search value (ECMA-262): expand `$$`, `$&`,
backtick-dollar and quote-dollar escapes in the replacement string; with a
string search there are no capture groups, so `$n` stays literal.  `matched`
is the search string itself, `before`/`after` the surrounding slices. -/
def expandDollar (matched before after : JStr) : JStr → JStr
  | [] => []
  | [c] => [c]
  | c :: d :: t =>
    if c = '$' then
      if d = '$' then '$' :: expandDollar matched before after t
      else if d = '&' then matched ++ expandDollar matched before after t
      else if d = Char.ofNat 96 then before ++ expandDollar matched before after t
      else if d = Char.ofNat 39 then after ++ expandDollar matched before after t
      else c :: expandDollar matched before after (d :: t)
    else c :: expandDollar matched before after (d :: t)

/-- `s.replace(pat, repl)` with a string `pat`: replace the FIRST occurrence
only, expanding `$` patterns in the replacement. -/
def jsReplace (s pat repl : JStr) : JStr :=
  match strIndexOf? s pat with
  | none => s
  | some i =>
      s.take i ++ expandDollar pat (s.take i) (s.drop (i + pat.length)) repl
        ++ s.drop (i + pat.length)

/-- `removeUrlQueryString` (src/index.ts): everything before the first `?`;
the whole string when there is none. -/
def removeUrlQueryString (url : JStr) : JStr :=
  url.takeWhile (fun c => c ≠ '?')

/-- `s.toLowerCase()` (ASCII suffices for the URLs handled here). -/
def lowerJ (s : JStr) : JStr := s.map Char.toLower

/-- `Number(s)` on an all-digit string. -/
def natOfDigits (s : JStr) : Nat :=
  s.foldl (fun a c => a * 10 + (c.toNat - 48)) 0

/-- `isNotUrl` (src/index.ts): lowercased string starts with neither
`http://` nor `https://`. -/
def isNotUrl (url : JStr) : Bool :=
  let u := lowerJ url
  ¬((js "http://").isPrefixOf u ∨ (js "https://").isPrefixOf u)

/-- Result of Node's legacy `url.parse` restricted to the fields the proxy
reads. -/
structure UrlInfo where
  protocol : Option JStr
  host : Option JStr
  hostname : Option JStr
  port : Option JStr
  path : Option JStr

/-- Split `s` at the first occurrence of `sep`: `(before, after)`. -/
def breakOn (sep s : JStr) : Option (JStr × JStr) :=
  match strIndexOf? s sep with
  | none => none
  | some i => some (s.take i, s.drop (i + sep.length))

/-- The port suffix of an authority, Node's `/:[0-9]*$/`: digits after a final
colon.  Returns `(host-part, port digits)`. -/
def splitPort (auth : JStr) : JStr × Option JStr :=
  let rev := auth.reverse
  let ds := rev.takeWhile (fun c => c.isDigit)
  match rev.dropWhile (fun c => c.isDigit) with
  | c :: rest => if c = ':' then (rest.reverse, some ds.reverse) else (auth, none)
  | [] => (auth, none)

/-- Model of Node's legacy `url.parse`, faithful on the URL shapes the proxy
handles: absolute `scheme://host[:port][/path][?query]` strings (no userinfo,
no IPv6 literal, no fragment) and, for non-URL strings (no `://`), the
everything-is-a-path result that `isNotUrl` then routes to the local-file
responder.  Scheme and hostname are lowercased; an http-style URL with an
empty path gets pathname `/`; `path` is pathname plus search. -/
def parseUrl (url : JStr) : UrlInfo :=
  match breakOn (js "://") url with
  | none =>
      { protocol := none, host := none, hostname := none, port := none
        path := some url }
  | some (scheme, rest) =>
      let auth := rest.takeWhile (fun c => c ≠ '/' ∧ c ≠ '?' ∧ c ≠ '#')
      let tail := rest.drop auth.length
      let hp := splitPort auth
      let hostname := lowerJ hp.1
      let host := match hp.2 with
        | some p => hostname ++ ':' :: p
        | none => hostname
      let pathname := tail.takeWhile (fun c => c ≠ '?')
      let search := tail.drop pathname.length
      let pathname2 := if pathname = [] then js "/" else pathname
      { protocol := some (lowerJ scheme ++ js ":")
        host := some host
        hostname := some hostname
        port := hp.2
        path := some (pathname2 ++ search) }

/-- `isHttpsProtocol` (src/index.ts): missing or empty protocol defaults to
`http:`; compares the lowercased protocol with `https:`. -/
def isHttpsProtocol (protocol : Option JStr) : Bool :=
  let p := match protocol with
    | none => js "http:"
    | some q => q
  let p2 := if p = [] then js "http:" else p
  lowerJ p2 = js "https:"

/-- `getHostPortFromUrl` (src/index.ts): hostname (empty when absent) and
port, defaulting to 443 for https and 80 otherwise when the parsed port is
missing or empty. -/
def getHostPortFromUrl (url : JStr) : JStr × Nat :=
  let info := parseUrl url
  let defaultPort := if isHttpsProtocol info.protocol then 443 else 80
  (info.hostname.getD [],
    match info.port with
    | some p => if p ≠ [] then natOfDigits p else defaultPort
    | none => defaultPort)

/-- A compiled `path-to-regexp` pattern, carried abstractly: the ordered
capture-key names (`String(key.name)`; unnamed groups are numbered from 0 by
the library), the regex's exec function (`none` = no match, `some result` with
the full match at index 0 followed by the captures), and the canonical pattern
string `String(regex)` used as the rule id.  The library compiles
deterministically, so recompiling the same rule spec yields the same data;
only the object identity of the regex differs, which the registry models
separately. -/
structure CompiledPattern where
  keys : List JStr
  exec : JStr → Option (List JStr)
  id : JStr

/-- `ProxyResult` (src/index.ts): target URL plus extra request headers. -/
structure ProxyResult where
  url : JStr
  headers : Obj

/-- `ProxyHandler` (src/index.ts): from the regex match result (the `req`
argument is only used for debug output by compiled string handlers) to a
`ProxyResult`. -/
abbrev ProxyHandler := Option (List JStr) → ProxyResult

/-- The `proxy` field of a rule: a template string or a dynamic handler. -/
inductive ProxySpec where
  | str (url : JStr)
  | fn (handler : ProxyHandler)

/-- `Rule` (src/index.ts).  The `match` spec is carried as its compiled
pattern (the deterministic output of `pathToRegexp(rule.match, end anchored)`). -/
structure Rule where
  «match» : CompiledPattern
  proxy : ProxySpec
  headers : Option Obj

/-- `FormattedRule` (src/index.ts). -/
structure FormattedRule where
  «match» : CompiledPattern
  proxy : ProxyHandler
  headers : Obj
  id : JStr
  result : Option (List JStr)

/-- `_compileProxyString` (src/index.ts): parse the target template once; at
call time auto-populate a `host` header from the template's own host when the
template has a truthy hostname, substitute each capture key's placeholder
(first occurrence of each) with `result[i]` for key index `i`, then each
positional placeholder with `result[i]`, and merge the rule's static headers
over the auto-populated ones. -/
def compileProxyString (m : CompiledPattern) (url : JStr) (headers : Obj) :
    ProxyHandler :=
  let info := parseUrl url
  fun result =>
    let retHeaders : Obj :=
      if optTruthy info.hostname then [(js "host", info.host.getD [])] else []
    let retUrl :=
      match result with
      | some res =>
          let u := (m.keys.enum).foldl
            (fun u ki =>
              jsReplace u (js "\x7b" ++ ki.2 ++ js "\x7d")
                (res.getD ki.1 (js "undefined")))
            url
          (res.enum).foldl
            (fun u vi =>
              jsReplace u (js "\x7b" ++ js (toString vi.1) ++ js "\x7d") vi.2)
            u
      | none => url
    { url := retUrl, headers := objMerge retHeaders headers }

/-- `_formatRule` (src/index.ts): compile the match spec, compile a string
proxy into a handler (a function proxy is kept as is), default the headers,
take `String(match)` as the id. -/
def formatRule (rule : Rule) : FormattedRule :=
  let m := rule.«match»
  { «match» := m
    proxy :=
      match rule.proxy with
      | .fn h => h
      | .str url => compileProxyString m url (rule.headers.getD [])
    headers := rule.headers.getD []
    id := m.id
    result := none }

/-- The rule registry `Map<RegExp, FormattedRule>`: entries in insertion
order, keyed by the identity of the compiled regex object (a `Nat` token). -/
abbrev Registry := List (Nat × FormattedRule)

/-- `Map.prototype.set`: overwrite in place when the key is present, append
otherwise. -/
def mapSet (m : Registry) (k : Nat) (v : FormattedRule) : Registry :=
  if m.any (fun p => p.1 = k) then
    m.map (fun p => if p.1 = k then (k, v) else p)
  else m ++ [(k, v)]

/-- The proxy's mutable state: the rule registry plus a counter supplying the
identity of the next compiled regex object (every `pathToRegexp` call returns
a fresh object). -/
structure ProxyState where
  rules : Registry
  nextKey : Nat

/-- Freshness invariant tying the key counter to the stored entries. -/
def StateWF (s : ProxyState) : Prop :=
  ∀ p ∈ s.rules, p.1 < s.nextKey

/-- `addRule` (src/index.ts): compile and `Map.set` under the freshly
compiled regex object. -/
def ProxyState.addRule (s : ProxyState) (rule : Rule) : ProxyState :=
  { rules := mapSet s.rules s.nextKey (formatRule rule)
    nextKey := s.nextKey + 1 }

/-- `removeRule` (src/index.ts): compile the input and delete every entry
whose id matches (the compiled object itself is discarded). -/
def ProxyState.removeRule (s : ProxyState) (rule : Rule) : ProxyState :=
  { s with rules := s.rules.filter (fun p => ¬(p.2.id = (formatRule rule).id)) }

/-- Modelled from the spec: `removeAllRules` is called by the CLI
collaborator (`cli.ts`, `setConfigToProxy`) on config reload but its
implementation is absent from the sources provided; the spec says
`RemoveAllRules()` clears the registry. -/
def ProxyState.removeAllRules (s : ProxyState) : ProxyState :=
  { s with rules := [] }

/-- The found rule is returned with its `result` field set (the object spread
in `_findRuleByUrl`). -/
def setResult (fr : FormattedRule) (res : List JStr) : FormattedRule :=
  { fr with result := some res }

/-- The scan inside `_findRuleByUrl`: first entry whose regex matches. -/
def findGo (u : JStr) : Registry → Option FormattedRule
  | [] => none
  | p :: rest =>
      match p.2.«match».exec u with
      | some res => some (setResult p.2 res)
      | none => findGo u rest

/-- `_findRuleByUrl` (src/index.ts): strip the query string, then scan the
registry in insertion order for the first matching pattern. -/
def findRuleByUrl (rules : Registry) (url : JStr) : Option FormattedRule :=
  findGo (removeUrlQueryString url) rules

/-- The `proxy-connection` fix-up in `_httpProxyPass` (src/index.ts): a truthy
inbound `proxy-connection` value is written into the override object as
`connection` and deleted from the inbound headers; then the spread merge with
the overrides winning. -/
def upstreamHeaders (reqHeaders headersOverride : Obj) : Obj :=
  match objGet reqHeaders (js "proxy-connection") with
  | some v =>
      if v ≠ [] then
        objMerge (objDelete reqHeaders (js "proxy-connection"))
          (objSet headersOverride (js "connection") v)
      else objMerge reqHeaders headersOverride
  | none => objMerge reqHeaders headersOverride

/-- The upstream request options built by `_httpProxyPass`. -/
structure UpstreamRequest where
  targetUrl : JStr
  useHttps : Bool
  host : Option JStr
  port : Nat
  path : Option JStr
  headers : Obj

/-- Where `_httpProxyPass` routes a request. -/
inductive PassResult where
  | localFile (file : JStr)
  | upstream (r : UpstreamRequest)

/-- `_httpProxyPass` (src/index.ts), the pure routing part: target URL from
the override when present (else the request URL), local-file response when it
is not an absolute http(s) URL, otherwise an upstream request whose module is
chosen by the scheme while the port defaults to 80, with the merged headers. -/
def httpProxyPass (reqUrl : JStr) (reqHeaders : Obj)
    (options : Option ProxyResult) : PassResult :=
  let url := match options with
    | some o => o.url
    | none => reqUrl
  let headers := match options with
    | some o => o.headers
    | none => []
  let info := parseUrl url
  if isNotUrl url then .localFile url
  else
    .upstream
      { targetUrl := url
        useHttps := isHttpsProtocol info.protocol
        host := info.hostname
        port :=
          match info.port with
          | some p => if p ≠ [] then natOfDigits p else 80
          | none => 80
        path := info.path
        headers := upstreamHeaders reqHeaders headers }

/-- Outcome of `_onRequest`. -/
inductive RequestOutcome where
  | errorResponse (status : Nat) (msg : JStr)
  | dispatched (p : PassResult)

/-- `_onRequest` (src/index.ts): missing/empty URL is a 500; a matching rule's
handler is invoked with the match result and its `ProxyResult` forwarded as
the override; otherwise a plain pass-through. -/
def onRequest (rules : Registry) (reqUrl : JStr) (reqHeaders : Obj) :
    RequestOutcome :=
  if reqUrl = [] then .errorResponse 500 (js "invalid request")
  else
    match findRuleByUrl rules reqUrl with
    | some rule => .dispatched (httpProxyPass reqUrl reqHeaders (some (rule.proxy rule.result)))
    | none => .dispatched (httpProxyPass reqUrl reqHeaders none)

/-- The target URL a request outcome forwards to (the resolved `url` of
`_httpProxyPass`), when any. -/
def outcomeTarget : RequestOutcome → Option JStr
  | .errorResponse _ _ => none
  | .dispatched (.localFile f) => some f
  | .dispatched (.upstream r) => some r.targetUrl

/-- Models the output of `pathToRegexp` on a rule string `pre(.*)` with end
anchoring: the regex `^pre((?:.*))$`, whose exec on newline-free input
succeeds exactly on strings extending `pre` and captures the rest; one
unnamed group, numbered 0 by the library.  The id stands for the canonical
pattern string (injective in `pre`; its exact regex spelling is immaterial to
the claims). -/
def prefixStarPattern (pre : JStr) : CompiledPattern :=
  { keys := [js "0"]
    exec := fun url =>
      if pre.isPrefixOf url then some [url, url.drop pre.length] else none
    id := pre ++ js "(.*)" }

/-- The header merge exactly as claim C5 words it, for comparison with the
code's `upstreamHeaders`: the inbound `proxy-connection` header is renamed to
`connection` inside the carried-forward (inbound) set, and the rule's override
headers win on every conflicting name. -/
def specUpstreamHeaders (reqHeaders headersOverride : Obj) : Obj :=
  let renamed :=
    match objGet reqHeaders (js "proxy-connection") with
    | some v => objSet (objDelete reqHeaders (js "proxy-connection")) (js "connection") v
    | none => reqHeaders
  objMerge renamed headersOverride

/-! ### CONNECT tunnel model (`_onConnect`) -/

/-- The parts of a CONNECT request the handler reads. -/
structure ConnectReq where
  url : JStr
  httpVersion : JStr

/-- Host and port the tunnel connects to: `getHostPortFromUrl` applied to
`https://` ++ the request target (so the default port is 443). -/
def connectTarget (req : ConnectReq) : JStr × Nat :=
  getHostPortFromUrl (js "https://" ++ req.url)

/-- The success line written to the client socket. -/
def establishedLine (req : ConnectReq) : JStr :=
  js "HTTP/" ++ req.httpVersion ++ js " 200 Connection established\r\n\r\n"

/-- The failure line written to the client socket. -/
def connectErrorLine (req : ConnectReq) : JStr :=
  js "HTTP/" ++ req.httpVersion ++ js " 500 Connection error\r\n\r\n"

/-- Events a tunnel reacts to: the TCP connect callback, piped data in either
direction, and an error on either socket. -/
inductive TunnelEvent where
  | connected
  | remoteData (bs : JStr)
  | clientData (bs : JStr)
  | remoteError
  | clientError

/-- Observable tunnel state: bytes written to each socket and whether each
socket has been ended by the handler. -/
structure TunnelState where
  clientOut : JStr
  remoteOut : JStr
  clientEnded : Bool
  remoteEnded : Bool

/-- One event-handler step of `_onConnect`: the connect callback writes
`bodyHead` upstream and the 200 line to the client; the two `pipe` calls relay
data unmodified; a remote-socket error ends the client socket with the 500
line; a client-socket error ends the remote socket without writing anything. -/
def tunnelStep (req : ConnectReq) (bodyHead : JStr) (st : TunnelState) :
    TunnelEvent → TunnelState
  | .connected =>
      { st with
        remoteOut := st.remoteOut ++ bodyHead
        clientOut := st.clientOut ++ establishedLine req }
  | .remoteData bs => { st with clientOut := st.clientOut ++ bs }
  | .clientData bs => { st with remoteOut := st.remoteOut ++ bs }
  | .remoteError =>
      { st with
        clientOut := st.clientOut ++ connectErrorLine req
        clientEnded := true }
  | .clientError => { st with remoteEnded := true }

/-- Run `_onConnect`'s handlers over a sequence of socket events. -/
def runTunnel (req : ConnectReq) (bodyHead : JStr) (events : List TunnelEvent) :
    TunnelState :=
  events.foldl (tunnelStep req bodyHead) ⟨[], [], false, false⟩

/-- Data-relay events (the only events of an error-free established tunnel). -/
def isDataEvent : TunnelEvent → Bool
  | .remoteData _ => true
  | .clientData _ => true
  | _ => false

/-- Concatenation of the bytes the remote peer sent. -/
def remoteChunks : List TunnelEvent → JStr
  | [] => []
  | .remoteData bs :: t => bs ++ remoteChunks t
  | _ :: t => remoteChunks t

/-- Concatenation of the bytes the client peer sent. -/
def clientChunks : List TunnelEvent → JStr
  | [] => []
  | .clientData bs :: t => bs ++ clientChunks t
  | _ :: t => clientChunks t

/-! ### Error-response model (`_responseError` and the forwarder's error
handlers) -/

/-- The observable state of an `http.ServerResponse`. -/
structure Res where
  headersSent : Bool
  status : Option Nat
  body : List JStr
  ended : Bool

/-- The error page `_responseError` sends (src/index.ts). -/
def errorBody (status : Nat) (msg : JStr) : JStr :=
  js "http proxy error:<hr><h1>HTTP " ++ js (toString status)
    ++ js "<br><small>" ++ msg ++ js "</small></h1>"

/-- Result of running `_responseError`: either the response was written (and
a `warn` notification emitted), or `res.writeHead` threw
`ERR_HTTP_HEADERS_SENT` (Node's documented behaviour when headers were
already sent), so neither the body write, the end, nor the `warn` emit ran. -/
inductive ErrorWriteResult where
  | written (res : Res) (warn : Nat × JStr)
  | threwHeadersSent (res : Res)

/-- `_responseError` (src/index.ts): `writeHead(status)` then `end(page)` then
`emit('warn')`, short-circuited by the headers-already-sent throw. -/
def responseError (res : Res) (status : Nat) (msg : JStr) : ErrorWriteResult :=
  if res.headersSent then .threwHeadersSent res
  else
    .written
      { headersSent := true
        status := some status
        body := res.body ++ [errorBody status msg]
        ended := true }
      (status, msg)

/-- The `remoteReq.on('error')` handler of `_httpProxyPass`:
`_responseError(res, 500, err.stack)`. -/
def onUpstreamError (res : Res) (errStack : JStr) : ErrorWriteResult :=
  responseError res 500 errStack

/-- The `req.on('error')` handler of `_httpProxyPass`: identical to the
upstream one. -/
def onInboundError (res : Res) (errStack : JStr) : ErrorWriteResult :=
  responseError res 500 errStack

/-! ### Concrete instances used by counterexamples and witnesses -/

/-- The rule `http://a.example/(.*) -> http://b.example/{1}` from the claims. -/
def ruleAB : Rule :=
  { «match» := prefixStarPattern (js "http://a.example/")
    proxy := .str (js "http://b.example/\x7b1\x7d")
    headers := none }

/-- The same pattern with target `http://b.example/{1}-{1}` (two occurrences
of the same positional placeholder). -/
def ruleABtwice : Rule :=
  { «match» := prefixStarPattern (js "http://a.example/")
    proxy := .str (js "http://b.example/\x7b1\x7d-\x7b1\x7d")
    headers := none }

/-- A second rule on its own pattern, used for precedence scenarios:
`http://a.example/(.*) -> http://c.example/{1}` would collide with `ruleAB`'s
id, so this one matches a different prefix. -/
def ruleCD : Rule :=
  { «match» := prefixStarPattern (js "http://")
    proxy := .str (js "http://fallback.example/\x7b1\x7d")
    headers := none }

/-- The empty proxy state. -/
def state0 : ProxyState := ⟨[], 0⟩

/-- The registry holding exactly `ruleAB`. -/
def registryAB : Registry := (state0.addRule ruleAB).rules

/-- A state with two rules, `ruleAB` then `ruleCD`, both of which match URLs
under `http://a.example/`. -/
def stateTwo : ProxyState := (state0.addRule ruleAB).addRule ruleCD

/-- The two-rule registry, in insertion order. -/
def registryTwo : Registry := stateTwo.rules

/-! ## Lemmas about the JS object model -/

theorem objGet_cons (p : JStr × JStr) (t : Obj) (k : JStr) :
    objGet (p :: t) k = if p.1 = k then some p.2 else objGet t k := by
  by_cases h : p.1 = k <;> simp [objGet, h]

theorem objGet_append (a b : Obj) (k : JStr) :
    objGet (a ++ b) k = jsOr (objGet a k) (objGet b k) := by
  unfold objGet
  rw [List.find?_append]
  cases h : a.find? (fun p => p.1 = k) <;> simp [jsOr, Option.or, h, objGet]

theorem objGet_eq_none_iff_any (o : Obj) (k : JStr) :
    objGet o k = none ↔ o.any (fun p => p.1 = k) = false := by
  induction o with
  | nil => simp [objGet]
  | cons p t ih => by_cases h : p.1 = k <;> simp [objGet_cons, h, ih]

theorem objGet_merge (a b : Obj) (k : JStr) :
    objGet (objMerge a b) k = jsOr (objGet b k) (objGet a k) := by
  induction a with
  | nil =>
      have h0 : objMerge [] b = b := by simp [objMerge]
      have h1 : objGet ([] : Obj) k = none := rfl
      rw [h0, h1]
      cases h : objGet b k <;> simp [jsOr]
  | cons p t ih =>
      unfold objMerge at ih ⊢
      rw [List.filter_cons]
      by_cases hmem : b.any (fun q => q.1 = p.1) = true
      · rw [if_neg (by simp [hmem])]
        by_cases hpk : p.1 = k
        · subst hpk
          rcases h : objGet b p.1 with _ | v
          · rw [objGet_eq_none_iff_any] at h
            rw [h] at hmem
            exact absurd hmem (by simp)
          · rw [ih, h]
            simp [jsOr, objGet_cons]
        · rw [ih]
          simp [objGet_cons, hpk]
      · rw [if_pos (by simp [hmem])]
        rw [List.cons_append, objGet_cons]
        by_cases hpk : p.1 = k
        · subst hpk
          have hb : objGet b p.1 = none := by
            rw [objGet_eq_none_iff_any]
            exact Bool.eq_false_iff.mpr hmem
          simp [hb, jsOr, objGet_cons]
        · rw [ih]
          simp [objGet_cons, hpk]

theorem objGet_map_replace_self (o : Obj) (k v : JStr)
    (h : o.any (fun p => p.1 = k) = true) :
    objGet (o.map (fun p => if p.1 = k then (k, v) else p)) k = some v := by
  induction o with
  | nil => simp at h
  | cons p t ih =>
      by_cases hp : p.1 = k
      · simp [hp, objGet_cons]
      · have ht : t.any (fun p => p.1 = k) = true := by
          simp only [List.any_cons] at h
          rcases Bool.or_eq_true_iff.mp h with h1 | h2
          · exact absurd (of_decide_eq_true h1) hp
          · exact h2
        rw [List.map_cons, if_neg hp, objGet_cons, if_neg hp]
        exact ih ht

theorem objGet_map_replace_ne (o : Obj) (k v k' : JStr) (h : ¬(k' = k)) :
    objGet (o.map (fun p => if p.1 = k then (k, v) else p)) k' = objGet o k' := by
  induction o with
  | nil => simp [objGet]
  | cons p t ih =>
      by_cases hp : p.1 = k
      · rw [List.map_cons, if_pos hp, objGet_cons, objGet_cons,
          if_neg (fun hh => h hh.symm), if_neg (fun hh => h (hp ▸ hh.symm)), ih]
      · rw [List.map_cons, if_neg hp, objGet_cons, objGet_cons, ih]

theorem objGet_set_self (o : Obj) (k v : JStr) :
    objGet (objSet o k v) k = some v := by
  unfold objSet
  by_cases h : o.any (fun p => p.1 = k) = true
  · rw [if_pos h]
    exact objGet_map_replace_self o k v h
  · rw [if_neg h, objGet_append]
    have hn : objGet o k = none := by
      rw [objGet_eq_none_iff_any]
      exact Bool.eq_false_iff.mpr h
    simp [hn, jsOr, objGet_cons]

theorem objGet_set_ne (o : Obj) (k v k' : JStr) (h : ¬(k' = k)) :
    objGet (objSet o k v) k' = objGet o k' := by
  unfold objSet
  by_cases ha : o.any (fun p => p.1 = k) = true
  · rw [if_pos ha]
    exact objGet_map_replace_ne o k v k' h
  · rw [if_neg ha, objGet_append]
    cases ho : objGet o k' with
    | some v2 => simp [jsOr, ho]
    | none =>
        simp only [ho, jsOr]
        rw [objGet_cons, if_neg (fun hh => h hh.symm)]
        simp [objGet]

theorem objGet_delete_self (o : Obj) (k : JStr) :
    objGet (objDelete o k) k = none := by
  induction o with
  | nil => simp [objDelete, objGet]
  | cons p t ih =>
      unfold objDelete at ih ⊢
      rw [List.filter_cons]
      by_cases hp : p.1 = k
      · rw [if_neg (by simp [hp])]
        exact ih
      · rw [if_pos (by simp [hp]), objGet_cons, if_neg hp]
        exact ih

theorem objGet_delete_ne (o : Obj) (k k' : JStr) (h : ¬(k' = k)) :
    objGet (objDelete o k) k' = objGet o k' := by
  induction o with
  | nil => simp [objDelete, objGet]
  | cons p t ih =>
      unfold objDelete at ih ⊢
      rw [List.filter_cons]
      by_cases hp : p.1 = k
      · rw [if_neg (by simp [hp]), ih, objGet_cons, if_neg (hp ▸ fun hh => h hh.symm)]
      · rw [if_pos (by simp [hp]), objGet_cons, objGet_cons, ih]

/-! ## Generic string and registry lemmas -/

theorem jsOr_none (a : Option JStr) : jsOr a none = a := by
  cases a <;> simp [jsOr]

theorem expandDollar_no_dollar (m b a : JStr) :
    ∀ repl : JStr, '$' ∉ repl → expandDollar m b a repl = repl := by
  intro repl
  induction repl with
  | nil => intro _; rfl
  | cons c t ih =>
      intro hmem
      have hc : ¬(c = '$') := fun hc => hmem (hc ▸ List.mem_cons_self c t)
      have ht : '$' ∉ t := fun hx => hmem (List.mem_cons_of_mem _ hx)
      cases t with
      | nil => rfl
      | cons d t2 =>
          show (if c = '$' then _ else c :: expandDollar m b a (d :: t2)) = _
          rw [if_neg hc, ih ht]

theorem jsReplace_of_not_found (s pat repl : JStr)
    (h : strIndexOf? s pat = none) : jsReplace s pat repl = s := by
  unfold jsReplace
  rw [h]

theorem mapSet_fresh (m : Registry) (k : Nat) (v : FormattedRule)
    (h : ∀ p ∈ m, ¬(p.1 = k)) : mapSet m k v = m ++ [(k, v)] := by
  unfold mapSet
  rw [if_neg]
  intro hc
  obtain ⟨p, hp, he⟩ := List.any_eq_true.mp hc
  exact h p hp (of_decide_eq_true he)

theorem takeWhile_all_of (p : Char → Bool) (l : JStr) (h : ∀ c ∈ l, p c = true) :
    l.takeWhile p = l :=
  List.takeWhile_eq_self_iff.mpr h

theorem takeWhile_append_all (p : Char → Bool) (l₁ l₂ : JStr)
    (h : ∀ c ∈ l₁, p c = true) :
    (l₁ ++ l₂).takeWhile p = l₁ ++ l₂.takeWhile p :=
  List.takeWhile_append_of_pos h

theorem findGo_cons_some (u : JStr) (p : Nat × FormattedRule) (t : Registry)
    (res : List JStr) (h : p.2.«match».exec u = some res) :
    findGo u (p :: t) = some (setResult p.2 res) := by
  show (match p.2.«match».exec u with
    | some res => some (setResult p.2 res)
    | none => findGo u t) = some (setResult p.2 res)
  rw [h]

theorem findGo_cons_none (u : JStr) (p : Nat × FormattedRule) (t : Registry)
    (h : p.2.«match».exec u = none) :
    findGo u (p :: t) = findGo u t := by
  show (match p.2.«match».exec u with
    | some res => some (setResult p.2 res)
    | none => findGo u t) = findGo u t
  rw [h]

theorem prefixStar_exec_append (pre s : JStr) :
    (prefixStarPattern pre).exec (pre ++ s) = some [pre ++ s, s] := by
  show (if pre.isPrefixOf (pre ++ s) then
      some [pre ++ s, (pre ++ s).drop pre.length] else none) = _
  rw [if_pos (List.isPrefixOf_iff_prefix.mpr (List.prefix_append pre s)),
    List.drop_left]

/-- The url computed by a compiled string handler on a match: the named pass
over the capture keys, then the positional pass over the whole exec result. -/
theorem compileProxyString_url (m : CompiledPattern) (url : JStr) (headers : Obj)
    (res : List JStr) :
    (compileProxyString m url headers (some res)).url =
      (res.enum).foldl
        (fun u vi => jsReplace u (js "\x7b" ++ js (toString vi.1) ++ js "\x7d") vi.2)
        ((m.keys.enum).foldl
          (fun u ki => jsReplace u (js "\x7b" ++ ki.2 ++ js "\x7d")
            (res.getD ki.1 (js "undefined")))
          url) := rfl

theorem jsReplace_found (s pat repl : JStr) (i : Nat)
    (h : strIndexOf? s pat = some i) :
    jsReplace s pat repl =
      s.take i ++ expandDollar pat (s.take i) (s.drop (i + pat.length)) repl
        ++ s.drop (i + pat.length) := by
  unfold jsReplace
  rw [h]

/-- The compiled string handler of the rule
`http://a.example/(.*) -> http://b.example/\x7b1\x7d` rewrites a matched URL
`http://a.example/` ++ s to `http://b.example/` ++ s (for dollar-free s). -/
theorem ruleAB_target (s : JStr) (hd : '$' ∉ s) :
    (compileProxyString (prefixStarPattern (js "http://a.example/"))
        (js "http://b.example/\x7b1\x7d") []
        (some [js "http://a.example/" ++ s, s])).url
      = js "http://b.example/" ++ s := by
  rw [compileProxyString_url]
  rw [show (prefixStarPattern (js "http://a.example/")).keys.enum = [(0, js "0")] from rfl]
  rw [show ([js "http://a.example/" ++ s, s] : List JStr).enum
      = [(0, js "http://a.example/" ++ s), (1, s)] from rfl]
  simp only [List.foldl_cons, List.foldl_nil]
  dsimp only [List.getD, List.get?, Option.getD]
  rw [jsReplace_of_not_found (js "http://b.example/\x7b1\x7d")
    (js "\x7b" ++ js "0" ++ js "\x7d") _ (by decide)]
  rw [jsReplace_of_not_found (js "http://b.example/\x7b1\x7d")
    (js "\x7b" ++ js (toString 0) ++ js "\x7d") _ (by decide)]
  rw [jsReplace_found (js "http://b.example/\x7b1\x7d")
    (js "\x7b" ++ js (toString 1) ++ js "\x7d") s 17 (by decide)]
  rw [expandDollar_no_dollar _ _ _ s hd]
  rw [show List.take 17 (js "http://b.example/\x7b1\x7d") = js "http://b.example/" from by decide]
  rw [show List.drop (17 + (js "\x7b" ++ js (toString 1) ++ js "\x7d").length)
      (js "http://b.example/\x7b1\x7d") = ([] : JStr) from by decide]
  rw [List.append_nil]

/-! ## Claim C5 -/

/-- Claim C5 (amended): the upstream request headers are the right-biased
merge of the inbound headers with the rule's override headers (override wins
on every name), except that a non-empty inbound `proxy-connection` value is
removed from the inbound set and written into the override set as
`connection` — so it wins even over a rule-supplied `connection` override —
while an empty (or absent) `proxy-connection` leaves the plain merge; a
rule-supplied `proxy-connection` override is still forwarded. -/
theorem upstream_header_merge (req ov : Obj) (k : JStr) :
    objGet (upstreamHeaders req ov) k =
      match objGet req (js "proxy-connection") with
      | some v =>
          if v ≠ [] then
            if k = js "connection" then some v
            else if k = js "proxy-connection" then objGet ov k
            else jsOr (objGet ov k) (objGet req k)
          else jsOr (objGet ov k) (objGet req k)
      | none => jsOr (objGet ov k) (objGet req k) := by
  unfold upstreamHeaders
  cases hpc : objGet req (js "proxy-connection") with
  | none => rw [objGet_merge]
  | some v =>
      dsimp only
      by_cases hv : v ≠ []
      · rw [if_pos hv, if_pos hv, objGet_merge]
        by_cases hk : k = js "connection"
        · subst hk
          rw [objGet_set_self]
          simp [jsOr]
        · rw [objGet_set_ne _ _ _ _ hk, if_neg hk]
          by_cases hk2 : k = js "proxy-connection"
          · subst hk2
            rw [objGet_delete_self, if_pos rfl, jsOr_none]
          · rw [objGet_delete_ne _ _ _ hk2, if_neg hk2]
      · rw [if_neg hv, if_neg hv, objGet_merge]

/-- Claim C5 counterexample: with inbound `proxy-connection: close` and rule
override `connection: keep-alive`, the code forwards `connection: close`
(the renamed inbound value clobbers the override), while the claim's merge —
override wins on every conflicting name — would forward
`connection: keep-alive`. -/
theorem upstream_header_merge_counterexample :
    objGet
        (upstreamHeaders [(js "proxy-connection", js "close")]
          [(js "connection", js "keep-alive")])
        (js "connection") = some (js "close")
  ∧ objGet
        (specUpstreamHeaders [(js "proxy-connection", js "close")]
          [(js "connection", js "keep-alive")])
        (js "connection") = some (js "keep-alive")
  ∧ ¬(some (js "close") = some (js "keep-alive")) := by
  refine ⟨by decide, by decide, by decide⟩

/-! ## Claim C4 -/

/-- Claim C4 (amended): for a string-template target invoked with a match
result, the compiled target function first replaces, for the capture key at
each position i, the FIRST occurrence of that key's placeholder with
result[i] (so, the full match at result[0] stands in for the first key), and
afterwards replaces, for each index i, the FIRST occurrence of the placeholder
for i with result[i]; repeated placeholders beyond the first occurrence are
left as-is.  In particular the round trip holds: pattern
`http://a.example/(.*)` with target `http://b.example/\x7b1\x7d` applied to a
matched path `http://a.example/` ++ s yields `http://b.example/` ++ s (for
dollar-free, newline-free s), e.g. s = `foo/bar`. -/
theorem compile_proxy_string_round_trip (s : JStr) (hd : '$' ∉ s)
    (_hnl : '\n' ∉ s) :
    (prefixStarPattern (js "http://a.example/")).exec (js "http://a.example/" ++ s)
        = some [js "http://a.example/" ++ s, s]
  ∧ (compileProxyString (prefixStarPattern (js "http://a.example/"))
        (js "http://b.example/\x7b1\x7d") []
        (some [js "http://a.example/" ++ s, s])).url
      = js "http://b.example/" ++ s := by
  refine ⟨prefixStar_exec_append _ _, ruleAB_target s hd⟩

/-- Claim C4 witness: the round trip at s = `foo/bar` yields
`http://b.example/foo/bar`. -/
theorem compile_proxy_string_round_trip_witness :
    (compileProxyString (prefixStarPattern (js "http://a.example/"))
        (js "http://b.example/\x7b1\x7d") []
        (some [js "http://a.example/foo/bar", js "foo/bar"])).url
      = js "http://b.example/foo/bar" := by
  have h := (compile_proxy_string_round_trip (js "foo/bar") (by decide) (by decide)).2
  exact h

/-- Claim C4 counterexample: the claim says EVERY placeholder occurrence is
substituted, but `String.replace` with a string pattern replaces only the
first occurrence: target `http://b.example/\x7b1\x7d-\x7b1\x7d` on a match
with capture `z` produces `http://b.example/z-\x7b1\x7d`, not the claimed
`http://b.example/z-z`. -/
theorem compile_proxy_string_counterexample :
    (compileProxyString (prefixStarPattern (js "http://a.example/"))
        (js "http://b.example/\x7b1\x7d-\x7b1\x7d") []
        (some [js "http://a.example/z", js "z"])).url
      = js "http://b.example/z-\x7b1\x7d"
  ∧ ¬((compileProxyString (prefixStarPattern (js "http://a.example/"))
        (js "http://b.example/\x7b1\x7d-\x7b1\x7d") []
        (some [js "http://a.example/z", js "z"])).url
      = js "http://b.example/z-z") := by
  refine ⟨by decide, by decide⟩

/-! ## Claim C3 -/

/-- Claim C3 (amended): the query string is excluded from pattern matching
but it is NOT reattached after rewriting — the rewritten target is built from
the query-stripped URL only, so a request for `http://a.example/` ++ s ++ `?`
++ q under the rule `http://a.example/(.*) -> http://b.example/\x7b1\x7d`
produces target `http://b.example/` ++ s, dropping `?` ++ q (for s without
`?`, `$` or newline); an unmatched request keeps its URL, query string
included, verbatim. -/
theorem query_string_dropped_on_rewrite (s q : JStr)
    (hq : '?' ∉ s) (hd : '$' ∉ s) (_hnl : '\n' ∉ s) :
    outcomeTarget (onRequest registryAB
        (js "http://a.example/" ++ s ++ js "?" ++ q) [])
      = some (js "http://b.example/" ++ s)
  ∧ (∀ (rules : Registry) (url : JStr), ¬(url = []) →
      findRuleByUrl rules url = none →
      outcomeTarget (onRequest rules url []) = some url) := by
  constructor
  · have hne : ¬(js "http://a.example/" ++ s ++ js "?" ++ q = []) := by
      intro hcontr
      exact List.cons_ne_nil _ _ hcontr
    have hstrip : removeUrlQueryString (js "http://a.example/" ++ s ++ js "?" ++ q)
        = js "http://a.example/" ++ s := by
      unfold removeUrlQueryString
      rw [List.append_assoc (js "http://a.example/" ++ s) (js "?") q]
      have hpos : ∀ c ∈ (js "http://a.example/" ++ s), (c ≠ '?' : Bool) = true := by
        intro c hc
        rw [decide_eq_true_eq]
        rcases List.mem_append.mp hc with hca | hcs
        · exact fun hceq => absurd (hceq ▸ hca) (by decide)
        · exact fun hceq => hq (hceq ▸ hcs)
      rw [takeWhile_append_all _ _ _ hpos]
      rw [show ((js "?" ++ q : JStr)) = '?' :: q from rfl]
      rw [List.takeWhile_cons_of_neg (by decide), List.append_nil]
    have hexec : (formatRule ruleAB).«match».exec (js "http://a.example/" ++ s)
        = some [js "http://a.example/" ++ s, s] :=
      prefixStar_exec_append (js "http://a.example/") s
    have hfind : findRuleByUrl registryAB
          (js "http://a.example/" ++ s ++ js "?" ++ q)
        = some (setResult (formatRule ruleAB) [js "http://a.example/" ++ s, s]) := by
      unfold findRuleByUrl
      rw [hstrip]
      rw [show registryAB = [(0, formatRule ruleAB)] from rfl]
      exact findGo_cons_some _ _ _ _ hexec
    have hurl : ((setResult (formatRule ruleAB) [js "http://a.example/" ++ s, s]).proxy
          (setResult (formatRule ruleAB) [js "http://a.example/" ++ s, s]).result).url
        = js "http://b.example/" ++ s := by
      show (compileProxyString (prefixStarPattern (js "http://a.example/"))
          (js "http://b.example/\x7b1\x7d") []
          (some [js "http://a.example/" ++ s, s])).url = _
      exact ruleAB_target s hd
    unfold onRequest
    rw [if_neg hne, hfind]
    unfold httpProxyPass
    dsimp only
    rw [hurl]
    rw [show isNotUrl (js "http://b.example/" ++ s) = false from rfl]
    rfl
  · intro rules url hne hfind
    unfold onRequest
    rw [if_neg hne, hfind]
    unfold httpProxyPass
    dsimp only
    by_cases hu : isNotUrl url = true
    · rw [if_pos hu]
      rfl
    · rw [if_neg hu]
      rfl

/-- Claim C3 witness: the rewritten target for request
`http://a.example/x?k=v` is `http://b.example/x`. -/
theorem query_string_dropped_on_rewrite_witness :
    outcomeTarget (onRequest registryAB
        (js "http://a.example/" ++ js "x" ++ js "?" ++ js "k=v") [])
      = some (js "http://b.example/" ++ js "x") :=
  (query_string_dropped_on_rewrite (js "x") (js "k=v")
    (by decide) (by decide) (by decide)).1

/-- Claim C3 counterexample: the claim says the query string is appended to
the rewritten target, i.e. that `http://a.example/x?k=v` yields target
`http://b.example/x?k=v`; the code produces `http://b.example/x` — the query
string is dropped on rewrite. -/
theorem query_string_counterexample :
    outcomeTarget (onRequest registryAB (js "http://a.example/x?k=v") [])
      = some (js "http://b.example/x")
  ∧ ¬(outcomeTarget (onRequest registryAB (js "http://a.example/x?k=v") [])
      = some (js "http://b.example/x?k=v")) := by
  refine ⟨by decide, by decide⟩

/-! ## Claim C6 -/

theorem parseUrl_host_isSome (url : JStr) (h : JStr)
    (hh : (parseUrl url).hostname = some h) :
    ∃ v, (parseUrl url).host = some v := by
  unfold parseUrl at hh ⊢
  cases hb : breakOn (js "://") url with
  | none => rw [hb] at hh; simp at hh
  | some p =>
      obtain ⟨scheme, rest⟩ := p
      exact ⟨_, rfl⟩

/-- The headers computed by a compiled string handler: the auto-populated
`host` entry (present when the template's hostname is truthy, holding the
template's `host`), merged under the rule's static headers. -/
theorem compileProxyString_headers (m : CompiledPattern) (url : JStr)
    (headers : Obj) (result : Option (List JStr)) :
    (compileProxyString m url headers result).headers =
      objMerge
        (if optTruthy (parseUrl url).hostname then
          [(js "host", (parseUrl url).host.getD [])] else [])
        headers := rfl

/-- Claim C6 (amended): for every string-template rule whose target URL has a
(truthy) hostname, the handler's returned headers contain a `host` entry
auto-populated from the target template's `host` — the hostname together with
`:port` when the template carries an explicit port, not the bare hostname —
and any `headers.host` explicitly supplied in the rule's static headers
overrides this auto-populated value. -/
theorem compiled_target_host_header (m : CompiledPattern) (url : JStr)
    (staticHeaders : Obj) (result : Option (List JStr)) (h : JStr)
    (hh : (parseUrl url).hostname = some h) (hne : ¬(h = [])) :
    objGet ((compileProxyString m url staticHeaders result).headers) (js "host")
      = jsOr (objGet staticHeaders (js "host")) ((parseUrl url).host) := by
  rw [compileProxyString_headers, objGet_merge]
  have ht : optTruthy (parseUrl url).hostname = true := by
    rw [hh]
    simp [optTruthy, hne]
  rw [if_pos ht]
  obtain ⟨hv, hhost⟩ := parseUrl_host_isSome url h hh
  rw [hhost]
  simp [objGet_cons, Option.getD]

/-- Claim C6 witness: for the template `http://c.example:9000/y` with no
static headers, the auto-populated `host` is the template's host. -/
theorem compiled_target_host_header_witness :
    objGet ((compileProxyString (prefixStarPattern (js "http://a.example/"))
        (js "http://c.example:9000/y") [] none).headers) (js "host")
      = jsOr (objGet ([] : Obj) (js "host"))
          ((parseUrl (js "http://c.example:9000/y")).host) :=
  compiled_target_host_header _ _ _ _ (js "c.example") (by decide) (by decide)

/-- Claim C6 counterexample: the claim says the `host` entry holds the
template's own HOSTNAME; for the template `http://b.example:8080/\x7b1\x7d`
the code populates `host` with `b.example:8080` (`info.host`, which includes
the port), not with the hostname `b.example`. -/
theorem compiled_target_host_header_counterexample :
    objGet ((compileProxyString (prefixStarPattern (js "http://a.example/"))
        (js "http://b.example:8080/\x7b1\x7d") []
        (some [js "http://a.example/x", js "x"])).headers) (js "host")
      = some (js "b.example:8080")
  ∧ (parseUrl (js "http://b.example:8080/\x7b1\x7d")).hostname
      = some (js "b.example")
  ∧ ¬(some (js "b.example:8080") = some (js "b.example")) := by
  refine ⟨by decide, by decide, by decide⟩

/-! ## Claim C1 -/

theorem findGo_some_first (u : JStr) (rules : Registry) (r : FormattedRule)
    (h : findGo u rules = some r) :
    ∃ i, ∃ hi : i < rules.length, ∃ res,
      (rules.get ⟨i, hi⟩).2.«match».exec u = some res
      ∧ r = setResult (rules.get ⟨i, hi⟩).2 res
      ∧ ∀ j, ∀ hj : j < rules.length, j < i →
          (rules.get ⟨j, hj⟩).2.«match».exec u = none := by
  induction rules with
  | nil => simp [findGo] at h
  | cons p t ih =>
      cases hx : p.2.«match».exec u with
      | some res =>
          rw [findGo_cons_some _ _ _ _ hx] at h
          refine ⟨0, by simp, res, by simpa using hx, (Option.some.inj h).symm, ?_⟩
          intro j hj hji
          exact absurd hji (Nat.not_lt_zero j)
      | none =>
          rw [findGo_cons_none _ _ _ hx] at h
          obtain ⟨i, hi, res, h1, h2, h3⟩ := ih h
          refine ⟨i + 1, by simpa using Nat.succ_lt_succ hi, res,
            by simpa using h1, by simpa using h2, ?_⟩
          intro j hj hji
          cases j with
          | zero => simpa using hx
          | succ j2 =>
              have hj2 : j2 < t.length := by simpa using hj
              have := h3 j2 hj2 (by omega)
              simpa using this

theorem findGo_none_iff (u : JStr) (rules : Registry) :
    findGo u rules = none ↔ ∀ p ∈ rules, p.2.«match».exec u = none := by
  induction rules with
  | nil => simp [findGo]
  | cons p t ih =>
      constructor
      · intro h
        cases hx : p.2.«match».exec u with
        | some res =>
            rw [findGo_cons_some _ _ _ _ hx] at h
            exact absurd h (by simp)
        | none =>
            rw [findGo_cons_none _ _ _ hx] at h
            intro q hq
            rcases List.mem_cons.mp hq with rfl | hq2
            · exact hx
            · exact (ih.mp h) q hq2
      · intro h
        have hx : p.2.«match».exec u = none := h p (List.mem_cons_self _ _)
        rw [findGo_cons_none _ _ _ hx]
        exact ih.mpr (fun q hq => h q (List.mem_cons_of_mem _ hq))

theorem removeRule_addRule_last (s : ProxyState) (rule : Rule)
    (hwf : StateWF s) :
    ((s.removeRule rule).addRule rule).rules
      = s.rules.filter (fun p => ¬(p.2.id = rule.«match».id))
          ++ [(s.nextKey, formatRule rule)] := by
  show mapSet (s.removeRule rule).rules (s.removeRule rule).nextKey
      (formatRule rule) = _
  rw [show (s.removeRule rule).nextKey = s.nextKey from rfl]
  rw [show (s.removeRule rule).rules
      = s.rules.filter (fun p => ¬(p.2.id = rule.«match».id)) from rfl]
  apply mapSet_fresh
  intro p hp
  exact Nat.ne_of_lt (hwf p (List.mem_of_mem_filter hp))

/-- Claim C1: `_findRuleByUrl` scans the registry in insertion order and
returns the first rule whose compiled pattern matches the query-stripped URL,
with its `result` field set to the match result; if some entry is returned,
every earlier entry's pattern fails on the query-stripped URL; no entry is
returned exactly when every pattern fails; and removing a rule and re-adding
it (on a well-formed state) deletes its entries in place and appends the
recompiled rule at the end — so its precedence changes. -/
theorem rule_lookup_first_match :
    (∀ (rules : Registry) (url : JStr) (r : FormattedRule),
      findRuleByUrl rules url = some r →
      ∃ i, ∃ hi : i < rules.length, ∃ res,
        (rules.get ⟨i, hi⟩).2.«match».exec (removeUrlQueryString url) = some res
        ∧ r = setResult (rules.get ⟨i, hi⟩).2 res
        ∧ ∀ j, ∀ hj : j < rules.length, j < i →
            (rules.get ⟨j, hj⟩).2.«match».exec (removeUrlQueryString url) = none)
  ∧ (∀ (rules : Registry) (url : JStr),
      findRuleByUrl rules url = none ↔
        ∀ p ∈ rules, p.2.«match».exec (removeUrlQueryString url) = none)
  ∧ (∀ (s : ProxyState) (rule : Rule), StateWF s →
      ((s.removeRule rule).addRule rule).rules
        = s.rules.filter (fun p => ¬(p.2.id = rule.«match».id))
            ++ [(s.nextKey, formatRule rule)]) := by
  refine ⟨?_, ?_, ?_⟩
  · intro rules url r h
    exact findGo_some_first (removeUrlQueryString url) rules r h
  · intro rules url
    exact findGo_none_iff (removeUrlQueryString url) rules
  · intro s rule hwf
    exact removeRule_addRule_last s rule hwf

/-- Claim C1 witness: on the two-rule registry (both rules match URLs under
`http://a.example/`), the lookup for `http://a.example/x?k=v` is the first
entry with its match result, and remove-then-re-add of the first rule places
it last. -/
theorem rule_lookup_first_match_witness :
    (∃ i, ∃ hi : i < registryTwo.length, ∃ res,
      (registryTwo.get ⟨i, hi⟩).2.«match».exec
          (removeUrlQueryString (js "http://a.example/x?k=v")) = some res
      ∧ setResult (formatRule ruleAB) [js "http://a.example/x", js "x"]
          = setResult (registryTwo.get ⟨i, hi⟩).2 res
      ∧ ∀ j, ∀ hj : j < registryTwo.length, j < i →
          (registryTwo.get ⟨j, hj⟩).2.«match».exec
            (removeUrlQueryString (js "http://a.example/x?k=v")) = none)
  ∧ ((stateTwo.removeRule ruleAB).addRule ruleAB).rules
      = stateTwo.rules.filter (fun p => ¬(p.2.id = ruleAB.«match».id))
          ++ [(stateTwo.nextKey, formatRule ruleAB)] := by
  refine ⟨rule_lookup_first_match.1 registryTwo (js "http://a.example/x?k=v")
      (setResult (formatRule ruleAB) [js "http://a.example/x", js "x"]) (by rfl),
    rule_lookup_first_match.2.2 stateTwo ruleAB
      (by show ∀ p ∈ stateTwo.rules, p.1 < stateTwo.nextKey; decide)⟩

/-! ## Claim C2 -/

/-- Claim C2 (amended): `addRule` called twice with the same rule appends TWO
registry entries — the `Map` is keyed by the identity of the freshly compiled
regex object, so the second call appends rather than replaces — and the two
entries carry the same id; a subsequent `removeRule` deletes every entry with
that id, restoring the registry (when the original state held none). -/
theorem add_rule_twice_duplicates (s : ProxyState) (rule : Rule)
    (hwf : StateWF s) :
    ((s.addRule rule).addRule rule).rules
      = s.rules ++ [(s.nextKey, formatRule rule), (s.nextKey + 1, formatRule rule)]
  ∧ (((s.addRule rule).addRule rule).removeRule rule).rules
      = s.rules.filter (fun p => ¬(p.2.id = rule.«match».id)) := by
  have h1 : (s.addRule rule).rules = s.rules ++ [(s.nextKey, formatRule rule)] := by
    show mapSet s.rules s.nextKey (formatRule rule) = _
    exact mapSet_fresh _ _ _ (fun p hp => Nat.ne_of_lt (hwf p hp))
  have h2 : ((s.addRule rule).addRule rule).rules
      = (s.rules ++ [(s.nextKey, formatRule rule)])
          ++ [(s.nextKey + 1, formatRule rule)] := by
    show mapSet (s.addRule rule).rules (s.addRule rule).nextKey
        (formatRule rule) = _
    rw [show (s.addRule rule).nextKey = s.nextKey + 1 from rfl, h1]
    apply mapSet_fresh
    intro p hp
    rcases List.mem_append.mp hp with hp1 | hp2
    · exact Nat.ne_of_lt (Nat.lt_succ_of_lt (hwf p hp1))
    · rw [show p.1 = s.nextKey from by
        rcases List.mem_singleton.mp hp2 with rfl; rfl]
      omega
  constructor
  · rw [h2, List.append_assoc]
    rfl
  · show (((s.addRule rule).addRule rule).rules).filter
        (fun p => ¬(p.2.id = (formatRule rule).id)) = _
    rw [h2, List.filter_append, List.filter_append]
    have hdrop : ∀ k : Nat,
        List.filter (fun p => ¬(p.2.id = (formatRule rule).id))
          [(k, formatRule rule)] = [] := by
      intro k
      simp [List.filter]
    rw [hdrop, hdrop, List.append_nil, List.append_nil]
    rfl

/-- Claim C2 counterexample: adding the same rule twice to the empty state
leaves TWO entries in the registry, not the claimed exactly one. -/
theorem add_rule_twice_counterexample :
    ¬(((state0.addRule ruleAB).addRule ruleAB).rules.length = 1)
  ∧ ((state0.addRule ruleAB).addRule ruleAB).rules.length = 2 := by
  refine ⟨by decide, by decide⟩

/-- Claim C2 witness: the duplicate-append equation at the empty state. -/
theorem add_rule_twice_duplicates_witness :
    ((state0.addRule ruleAB).addRule ruleAB).rules
      = state0.rules
          ++ [(state0.nextKey, formatRule ruleAB),
              (state0.nextKey + 1, formatRule ruleAB)]
  ∧ (((state0.addRule ruleAB).addRule ruleAB).removeRule ruleAB).rules
      = state0.rules.filter (fun p => ¬(p.2.id = ruleAB.«match».id)) :=
  add_rule_twice_duplicates state0 ruleAB
    (by show ∀ p ∈ state0.rules, p.1 < state0.nextKey; decide)

/-! ## Claim C7 -/

theorem tunnel_data_fold (req : ConnectReq) (bodyHead : JStr) :
    ∀ (ds : List TunnelEvent) (st : TunnelState),
    (∀ e ∈ ds, isDataEvent e = true) →
    ds.foldl (tunnelStep req bodyHead) st
      = { st with
          clientOut := st.clientOut ++ remoteChunks ds
          remoteOut := st.remoteOut ++ clientChunks ds } := by
  intro ds
  induction ds with
  | nil =>
      intro st _
      cases st
      simp [remoteChunks, clientChunks]
  | cons e t ih =>
      intro st h
      have he := h e (List.mem_cons_self _ _)
      have ht := fun x hx => h x (List.mem_cons_of_mem _ hx)
      cases e with
      | remoteData bs =>
          rw [List.foldl_cons, ih _ ht]
          simp [tunnelStep, remoteChunks, clientChunks, List.append_assoc]
      | clientData bs =>
          rw [List.foldl_cons, ih _ ht]
          simp [tunnelStep, remoteChunks, clientChunks, List.append_assoc]
      | connected => simp [isDataEvent] at he
      | remoteError => simp [isDataEvent] at he
      | clientError => simp [isDataEvent] at he

theorem strIndexOf?_not_prefix_cons (c : Char) (hay pat : JStr)
    (h : pat.isPrefixOf (c :: hay) = false) :
    strIndexOf? (c :: hay) pat = (strIndexOf? hay pat).map (fun n => n + 1) := by
  conv_lhs => rw [strIndexOf?.eq_def]
  rw [h, if_neg (by decide)]

theorem strIndexOf?_at_zero (hay pat : JStr) (h : pat.isPrefixOf hay = true) :
    strIndexOf? hay pat = some 0 := by
  conv_lhs => rw [strIndexOf?.eq_def]
  rw [h, if_pos rfl]

theorem strIndexOf?_https (u : JStr) :
    strIndexOf? (js "https://" ++ u) (js "://") = some 5 := by
  rw [show ((js "https://" ++ u : JStr))
      = 'h' :: 't' :: 't' :: 'p' :: 's' :: (js "://" ++ u) from rfl]
  rw [strIndexOf?_not_prefix_cons 'h'
    ('t' :: 't' :: 'p' :: 's' :: (js "://" ++ u)) (js "://") rfl]
  rw [strIndexOf?_not_prefix_cons 't'
    ('t' :: 'p' :: 's' :: (js "://" ++ u)) (js "://") rfl]
  rw [strIndexOf?_not_prefix_cons 't'
    ('p' :: 's' :: (js "://" ++ u)) (js "://") rfl]
  rw [strIndexOf?_not_prefix_cons 'p'
    ('s' :: (js "://" ++ u)) (js "://") rfl]
  rw [strIndexOf?_not_prefix_cons 's' (js "://" ++ u) (js "://") rfl]
  rw [strIndexOf?_at_zero _ _
    (List.isPrefixOf_iff_prefix.mpr (List.prefix_append _ _))]
  rfl

theorem breakOn_https (u : JStr) :
    breakOn (js "://") (js "https://" ++ u) = some (js "https", u) := by
  unfold breakOn
  rw [strIndexOf?_https]
  dsimp only
  have hdp : ((js "https://" ++ u : JStr)).drop (5 + (js "://").length) = u :=
    List.drop_left' (by decide)
  rw [hdp]
  rw [show ((js "https://" ++ u : JStr)) = js "https" ++ (js "://" ++ u) from rfl]
  rw [List.take_left' (by decide)]

theorem parseUrl_connect (req : ConnectReq)
    (h : ∀ c ∈ req.url, ¬(c = ':') ∧ ¬(c = '/') ∧ ¬(c = '?') ∧ ¬(c = '#')) :
    parseUrl (js "https://" ++ req.url)
      = { protocol := some (js "https:")
          host := some (lowerJ req.url)
          hostname := some (lowerJ req.url)
          port := none
          path := some (js "/") } := by
  have hauth : req.url.takeWhile (fun c => (c ≠ '/' ∧ c ≠ '?' ∧ c ≠ '#' : Bool))
      = req.url := by
    apply takeWhile_all_of
    intro c hc
    rw [decide_eq_true_eq]
    exact ⟨(h c hc).2.1, (h c hc).2.2.1, (h c hc).2.2.2⟩
  have hsp : splitPort req.url = (req.url, none) := by
    unfold splitPort
    dsimp only
    cases hdw : req.url.reverse.dropWhile (fun c => c.isDigit) with
    | nil => rfl
    | cons c rest =>
        dsimp only
        rw [if_neg ?hc]
        case hc =>
          have hsub : List.Sublist
              (List.dropWhile (fun c => c.isDigit) req.url.reverse)
              req.url.reverse := List.dropWhile_sublist _
          rw [hdw] at hsub
          exact fun hceq =>
            (h c (List.mem_reverse.mp (hsub.subset (List.mem_cons_self c rest)))).1
              hceq
  unfold parseUrl
  rw [breakOn_https]
  dsimp only
  rw [hauth, List.drop_length, hsp]
  rfl

theorem connectTarget_no_port (req : ConnectReq)
    (h : ∀ c ∈ req.url, ¬(c = ':') ∧ ¬(c = '/') ∧ ¬(c = '?') ∧ ¬(c = '#')) :
    connectTarget req = (lowerJ req.url, 443) := by
  unfold connectTarget getHostPortFromUrl
  rw [parseUrl_connect req h]
  dsimp only
  rw [show isHttpsProtocol (some (js "https:")) = true from by decide]
  rfl

/-- Claim C7: the CONNECT handler, on connect success, writes the buffered
bodyHead to the upstream socket and the exact bytes
`HTTP/<version> 200 Connection established\r\n\r\n` to the client socket
before any tunneled bytes, then relays data in both directions unmodified
without ending either socket; a connect failure or upstream socket error
appends `HTTP/<version> 500 Connection error\r\n\r\n` to the client socket
and ends it; a client socket error ends the upstream socket without writing
any response; and the tunnel target is the request target's host with port
defaulting to 443. -/
theorem connect_tunnel_behaviour :
    (∀ (req : ConnectReq) (bodyHead : JStr) (ds : List TunnelEvent),
      (∀ e ∈ ds, isDataEvent e = true) →
      runTunnel req bodyHead (.connected :: ds)
        = { clientOut := establishedLine req ++ remoteChunks ds
            remoteOut := bodyHead ++ clientChunks ds
            clientEnded := false
            remoteEnded := false })
  ∧ (∀ (req : ConnectReq) (bodyHead : JStr) (es : List TunnelEvent),
      runTunnel req bodyHead (es ++ [.remoteError])
        = { runTunnel req bodyHead es with
            clientOut := (runTunnel req bodyHead es).clientOut
              ++ connectErrorLine req
            clientEnded := true })
  ∧ (∀ (req : ConnectReq) (bodyHead : JStr) (es : List TunnelEvent),
      runTunnel req bodyHead (es ++ [.clientError])
        = { runTunnel req bodyHead es with remoteEnded := true })
  ∧ (∀ req : ConnectReq,
      (∀ c ∈ req.url, ¬(c = ':') ∧ ¬(c = '/') ∧ ¬(c = '?') ∧ ¬(c = '#')) →
      connectTarget req = (lowerJ req.url, 443)) := by
  refine ⟨?_, ?_, ?_, ?_⟩
  · intro req bodyHead ds h
    show ds.foldl (tunnelStep req bodyHead)
        (tunnelStep req bodyHead ⟨[], [], false, false⟩ .connected) = _
    rw [tunnel_data_fold req bodyHead ds _ h]
    simp [tunnelStep]
  · intro req bodyHead es
    unfold runTunnel
    rw [List.foldl_append, List.foldl_cons, List.foldl_nil]
    rfl
  · intro req bodyHead es
    unfold runTunnel
    rw [List.foldl_append, List.foldl_cons, List.foldl_nil]
    rfl
  · exact connectTarget_no_port

/-- Claim C7 witness: a concrete tunnel session to `upstream.example` (no
explicit port): the 200 line precedes the relayed bytes, a trailing upstream
error appends the 500 line and ends the client socket, and the extracted
target is port 443. -/
theorem connect_tunnel_behaviour_witness :
    runTunnel ⟨js "upstream.example", js "1.1"⟩ (js "HEAD")
        [.connected, .remoteData (js "ab"), .clientData (js "cd")]
      = { clientOut := establishedLine ⟨js "upstream.example", js "1.1"⟩
            ++ remoteChunks [TunnelEvent.remoteData (js "ab"),
                TunnelEvent.clientData (js "cd")],
          remoteOut := js "HEAD"
            ++ clientChunks [TunnelEvent.remoteData (js "ab"),
                TunnelEvent.clientData (js "cd")],
          clientEnded := false,
          remoteEnded := false }
  ∧ runTunnel ⟨js "upstream.example", js "1.1"⟩ (js "HEAD") ([] ++ [.remoteError])
      = { runTunnel ⟨js "upstream.example", js "1.1"⟩ (js "HEAD") [] with
          clientOut := (runTunnel ⟨js "upstream.example", js "1.1"⟩
              (js "HEAD") []).clientOut
            ++ connectErrorLine ⟨js "upstream.example", js "1.1"⟩,
          clientEnded := true }
  ∧ connectTarget ⟨js "upstream.example", js "1.1"⟩
      = (lowerJ (js "upstream.example"), 443) := by
  refine ⟨connect_tunnel_behaviour.1 _ _ _ (by decide),
    connect_tunnel_behaviour.2.1 _ _ _,
    connect_tunnel_behaviour.2.2.2 _ (by decide)⟩

/-! ## Claim C8 -/

/-- Claim C8: any error on the upstream connection or the inbound request
stream triggers `_responseError(res, 500, err.stack)`: when response headers
have not yet been sent, the client gets a synthesized error response of
status 500 whose body contains the error detail, the response is ended and a
`warn` notification is emitted; when headers were already sent, `writeHead`
throws (Node's ERR_HTTP_HEADERS_SENT), so no error response is written — the
response state is untouched and no `warn` is emitted, the handler aborting
instead of completing; the inbound-error handler is identical to the
upstream one. -/
theorem upstream_error_response (res : Res) (errStack : JStr) :
    (res.headersSent = false →
      onUpstreamError res errStack
        = .written
            { headersSent := true, status := some 500,
              body := res.body ++ [errorBody 500 errStack], ended := true }
            (500, errStack)
      ∧ errStack <:+: errorBody 500 errStack)
  ∧ (res.headersSent = true →
      onUpstreamError res errStack = .threwHeadersSent res)
  ∧ onInboundError res errStack = onUpstreamError res errStack := by
  refine ⟨?_, ?_, rfl⟩
  · intro h
    refine ⟨by simp [onUpstreamError, responseError, h], ?_⟩
    exact ⟨js "http proxy error:<hr><h1>HTTP " ++ js (toString 500)
        ++ js "<br><small>", js "</small></h1>", rfl⟩
  · intro h
    simp [onUpstreamError, responseError, h]

/-- Claim C8 witness: the two branches at concrete response states. -/
theorem upstream_error_response_witness :
    (onUpstreamError ⟨false, none, [], false⟩ (js "boom")
        = .written
            { headersSent := true, status := some 500,
              body := ([] : List JStr) ++ [errorBody 500 (js "boom")],
              ended := true }
            (500, js "boom")
      ∧ (js "boom") <:+: errorBody 500 (js "boom"))
  ∧ onUpstreamError ⟨true, some 200, [], false⟩ (js "boom")
      = .threwHeadersSent ⟨true, some 200, [], false⟩ :=
  ⟨(upstream_error_response ⟨false, none, [], false⟩ (js "boom")).1 rfl,
    (upstream_error_response ⟨true, some 200, [], false⟩ (js "boom")).2.1 rfl⟩

/-! ## Claim C9 -/

/-- Claim C9: `removeAllRules` (modelled from the spec: its implementation is
absent from the sources, while `cli.ts` calls it on config reload) leaves the
registry empty, so a subsequent lookup on any URL returns no match until new
rules are added. -/
theorem remove_all_rules_clears (s : ProxyState) (url : JStr) :
    (s.removeAllRules).rules = []
  ∧ findRuleByUrl (s.removeAllRules).rules url = none :=
  ⟨rfl, rfl⟩

/-! ## Claim C10 -/

/-- Claim C10: for a forwarded (non-CONNECT) request whose resolved target
URL has no explicit port, the upstream request is opened on port 80 — also
when the target scheme is https, where the scheme selects the https request
function but the port still defaults to 80, not 443. -/
theorem upstream_port_defaults_80 (reqUrl : JStr) (reqHeaders : Obj)
    (o : ProxyResult) (hn : isNotUrl o.url = false)
    (hp : (parseUrl o.url).port = none) :
    ∃ r, httpProxyPass reqUrl reqHeaders (some o) = .upstream r
      ∧ r.port = 80
      ∧ r.useHttps = isHttpsProtocol (parseUrl o.url).protocol
      ∧ ((parseUrl o.url).protocol = some (js "https:") → r.useHttps = true) := by
  have h1 : httpProxyPass reqUrl reqHeaders (some o) = .upstream
      { targetUrl := o.url
        useHttps := isHttpsProtocol (parseUrl o.url).protocol
        host := (parseUrl o.url).hostname
        port := 80
        path := (parseUrl o.url).path
        headers := upstreamHeaders reqHeaders o.headers } := by
    unfold httpProxyPass
    dsimp only
    rw [hn, if_neg (by decide), hp]
  refine ⟨_, h1, rfl, rfl, fun hh => ?_⟩
  show isHttpsProtocol (parseUrl o.url).protocol = true
  rw [hh]
  decide

/-- Claim C10 witness: an https target without port is opened on port 80 with
the https request function. -/
theorem upstream_port_defaults_80_witness :
    ∃ r, httpProxyPass (js "http://a.example/x") []
        (some ⟨js "https://secure.example/x", []⟩) = .upstream r
      ∧ r.port = 80
      ∧ r.useHttps
          = isHttpsProtocol (parseUrl (js "https://secure.example/x")).protocol
      ∧ ((parseUrl (js "https://secure.example/x")).protocol = some (js "https:")
          → r.useHttps = true) :=
  upstream_port_defaults_80 _ _ _ (by decide) (by decide)

end HttpProxy
